import Mathlib

/-
Verification of the agentic RAG orchestrator (ai-engine/core/agentic_rag.py).

The orchestrator is a LangGraph workflow over an `AgentState` record with
nodes decide_action, refine_query, search, search_web, generate_answer and
routers _route_after_decide / _route_after_search.  Following the design
notes of the specification (§9), the cyclic node/edge control flow is
embedded as an explicit finite set of node tags plus a step function on
configurations, executed as a plain loop; node functions are state
transformers on `AgentState`.  External collaborators (the decision /
refine / generation LLM calls, the internal similarity search and the web
search) are modelled as an `Env` of oracles indexed by a tick counter, so
that an oracle may answer differently at every call (this covers arbitrary,
including persistently failing, behaviours of the external capabilities).
Python dictionaries for result items are modelled as structures whose
fields correspond to the keys the code reads; a missing "text"/"content"
key (Python `r.get("text", "")`) is represented by the empty string.
Python `str.lower()` / `str.strip()` are modelled by explicit char-list
functions below.
-/

/-- An internal search result: a Python dict read through `r.get("text", "")`;
`meta` abstracts the remaining payload (metadata, score) that the merge and
routing logic never inspects. -/
structure DocItem where
  text : String
  meta : String
deriving DecidableEq, Repr

/-- A web search result dict: the code reads keys "type" (kind), "title",
"url", "content". -/
structure WebItem where
  kind : String
  title : String
  url : String
  content : String
deriving DecidableEq, Repr

/-- AgentState (TypedDict) threaded through the workflow.  All keys are
present from `query()`'s initial state on, so `state.get(k, default)` in the
Python code always returns the stored value. -/
structure AgentState where
  question : String
  query : String
  searchResults : List DocItem
  webResults : List WebItem
  answer : Option String
  iteration : Nat
  maxIterations : Nat
  needsRefinement : Bool
  shouldContinue : Bool
  useWebSearch : Bool
deriving DecidableEq, Repr

/-- Does the character list start with the given pattern? (Python `startswith`,
used to implement substring containment.) -/
def listStartsWith : List Char → List Char → Bool
  | [], _ => true
  | _ :: _, [] => false
  | p :: ps, c :: cs => (p == c) && listStartsWith ps cs

/-- Does `pat` occur as a contiguous sublist of `s`? -/
def listHasSub (pat : List Char) : List Char → Bool
  | [] => pat.isEmpty
  | c :: cs => listStartsWith pat (c :: cs) || listHasSub pat cs

/-- Python `pat in s` on strings. -/
def strContains (s pat : String) : Bool :=
  listHasSub pat.toList s.toList

/-- Python `str.lower()` (modelled with Lean's per-character lowercasing; the
fixed keyword set below is already lowercase, so lowering is the identity on
every keyword occurrence). -/
def pyLower (s : String) : String :=
  String.mk (s.toList.map Char.toLower)

/-- Drop characters satisfying `p` from both ends of a character list. -/
def stripEndsBy (p : Char → Bool) (cs : List Char) : List Char :=
  ((cs.dropWhile p).reverse.dropWhile p).reverse

/-- Python `str.strip()` — remove surrounding whitespace. -/
def pyStripWs (s : String) : String :=
  String.mk (stripEndsBy Char.isWhitespace s.toList)

/-- Python `str.strip(c)` for a single character — remove all copies of `c`
from both ends. -/
def pyStripChar (c : Char) (s : String) : String :=
  String.mk (stripEndsBy (fun x => x == c) s.toList)

/-- The fixed lexical set of `_contains_specific_data_query`
(agentic_rag.py lines 48–53). -/
def specificDataKeywords : List String :=
  ["bao nhiêu", "mức", "tỷ lệ", "%", "phần trăm",
   "số tiền", "tiền", "lương", "ngày", "tháng", "năm",
   "hiện nay", "mới nhất", "2024", "2025",
   "cụ thể", "chính xác", "đúng"]

/-- `_contains_specific_data_query(question)`:
`any(keyword in question.lower() for keyword in keywords)`. -/
def containsSpecificDataQuery (question : String) : Bool :=
  specificDataKeywords.any (fun k => strContains (pyLower question) k)

/-- The merge loop shared by `_search` (lines 400–410, key = "text") and
`_search_web` (lines 457–467, key = "content"): walk the incoming list,
skipping items whose key is empty (Python falsy) or already seen, appending
the rest and recording their key in the seen set. -/
def dedupMergeLoop {α : Type} (key : α → String) :
    List α → List String → List α → List α
  | [], _, acc => acc
  | r :: rs, seen, acc =>
    if key r ≠ "" ∧ key r ∉ seen then
      dedupMergeLoop key rs (key r :: seen) (acc ++ [r])
    else
      dedupMergeLoop key rs seen acc

/-- The full merge of `_search` / `_search_web`: if the accumulated list is
empty the incoming list is adopted verbatim (`merged_results = new_results`);
otherwise the accumulated list is copied and deduplicated-appended. -/
def dedupMerge {α : Type} (key : α → String) (existing incoming : List α) :
    List α :=
  match existing with
  | [] => incoming
  | _ :: _ => dedupMergeLoop key incoming (existing.map key) existing

/-- Merge of internal search results, deduplicated by exact text
(agentic_rag.py lines 396–415). -/
def mergeSearchResults (existing incoming : List DocItem) : List DocItem :=
  dedupMerge DocItem.text existing incoming

/-- Merge of web results, deduplicated by exact content
(agentic_rag.py lines 453–471). -/
def mergeWebResults (existing incoming : List WebItem) : List WebItem :=
  dedupMerge WebItem.content existing incoming

/-- The incoming internal items whose text does not already occur in the
accumulated list. -/
def newItems (existing incoming : List DocItem) : List DocItem :=
  incoming.filter (fun r => decide (r.text ∉ existing.map DocItem.text))

/-- The incoming web items whose content does not already occur in the
accumulated list. -/
def newWebItems (existing incoming : List WebItem) : List WebItem :=
  incoming.filter (fun r => decide (r.content ∉ existing.map WebItem.content))

/-- An entry of `all_results` in `_generate_answer`: an internal item tagged
with source_type "internal", or a normalized web item; the metadata and
score fields of the Python dict are not inspected by any routing or merge
logic and are omitted. -/
structure TaggedResult where
  text : String
  sourceType : String
deriving DecidableEq, Repr

/-- The external collaborators, as tick-indexed oracles.  The tick is the
global count of executed nodes, so an oracle may answer differently at every
call; failing calls are `Except.error msg` (the Python exception message). -/
structure Env where
  decideLLM : Nat → AgentState → Except String String
  refineLLM : Nat → AgentState → Except String String
  searchFn : Nat → String → Except String (List DocItem)
  webFn : Nat → String → Except String (List WebItem)
  generateFn : Nat → String → List TaggedResult → Except String String

/-- The three decision flags (needs_refinement, should_continue,
use_web_search) produced by `_decide_action` (lines 219–320), together with
the number of calls issued to the decision-making capability.  Branches in
source order: hard stop at max_iterations (flags other than should_continue
untouched), bootstrap when no results of either kind exist, the
deterministic web-search fallback, then the LLM call with substring parsing
of the lowercased reply, whose failure path stops when any results exist and
otherwise continues with a default internal search (use_web_search set to
false on both failure legs). -/
def decideFlags (eweb : Bool) (env : Env) (t : Nat) (s : AgentState) :
    (Bool × Bool × Bool) × Nat :=
  if s.maxIterations ≤ s.iteration then
    ((s.needsRefinement, false, s.useWebSearch), 0)
  else if s.searchResults = [] ∧ s.webResults = [] then
    ((false, true, false), 0)
  else if eweb = true ∧ 2 ≤ s.iteration ∧ s.webResults = [] ∧
      containsSpecificDataQuery s.question = true then
    ((false, true, true), 0)
  else
    match env.decideLLM t s with
    | Except.ok resp =>
      let decision := pyLower (pyStripWs resp)
      if strContains decision "refine" = true then
        ((true, true, false), 1)
      else if strContains decision "web" = true ∧ eweb = true then
        ((false, true, true), 1)
      else if strContains decision "search" = true then
        ((false, true, false), 1)
      else
        ((s.needsRefinement, false, false), 1)
    | Except.error _ =>
      if s.searchResults ≠ [] ∨ s.webResults ≠ [] then
        ((s.needsRefinement, false, false), 1)
      else
        ((false, true, false), 1)

/-- `_decide_action`: updates only the three decision flags; second component
counts calls to the decision-making capability. -/
def decideAction (eweb : Bool) (env : Env) (t : Nat) (s : AgentState) :
    AgentState × Nat :=
  let f := decideFlags eweb env t s
  ({ s with needsRefinement := f.1.1, shouldContinue := f.1.2.1,
            useWebSearch := f.1.2.2 }, f.2)

/-- `_refine_query` (lines 322–368): on success the reply is stripped of
whitespace, then of double quotes, then of single quotes, and becomes the
new query; on failure the previous query is kept. -/
def refineStep (env : Env) (t : Nat) (s : AgentState) : AgentState :=
  match env.refineLLM t s with
  | Except.ok resp =>
    let refined := pyStripChar (Char.ofNat 39)
      (pyStripChar (Char.ofNat 34) (pyStripWs resp))
    { s with query := refined }
  | Except.error _ => { s with query := s.query }

/-- `_search` (lines 370–424): on success, merge the returned list into the
accumulated internal results and increment iteration; on failure, keep the
accumulated list and do not touch iteration. -/
def searchStep (env : Env) (t : Nat) (s : AgentState) : AgentState :=
  match env.searchFn t s.query with
  | Except.ok newResults =>
    { s with searchResults := mergeSearchResults s.searchResults newResults,
             iteration := s.iteration + 1 }
  | Except.error _ => { s with searchResults := s.searchResults }

/-- `_search_web` (lines 426–481): a no-op when web search is disabled or
the web-search component is absent (`initialize()` ties the two together, so
both are modelled by the single flag `eweb`); on success, merge by content
and increment iteration; on failure, keep state and iteration. -/
def searchWebStep (eweb : Bool) (env : Env) (t : Nat) (s : AgentState) :
    AgentState :=
  if eweb = false then s
  else
    match env.webFn t s.query with
    | Except.ok results =>
      { s with webResults := mergeWebResults s.webResults results,
               iteration := s.iteration + 1 }
    | Except.error _ => { s with webResults := s.webResults }

/-- The fixed "no information found" answer of `_generate_answer`
(line 532). -/
def noResultsMsg : String :=
  "Xin lỗi, tôi không tìm thấy thông tin liên quan đến câu hỏi của bạn."

/-- `all_results` of `_generate_answer` (lines 498–529): internal results
tagged "internal" first, then web results normalized by kind — "article"
becomes a source-attributed text block, "answer" a web-summary block, any
other kind is dropped. -/
def combineResults (s : AgentState) : List TaggedResult :=
  s.searchResults.map (fun r => { text := r.text, sourceType := "internal" })
    ++ s.webResults.filterMap (fun r =>
      if r.kind = "article" then
        some { text := "[Nguồn web: " ++ r.title ++ "]\n" ++ r.content,
               sourceType := "web" }
      else if r.kind = "answer" then
        some { text := "[Tóm tắt từ Web Search]\n" ++ r.content,
               sourceType := "web" }
      else none)

/-- `_generate_answer` (lines 483–550): short-circuit to the fixed message
when the combined list is empty; otherwise one generation call, whose
failure is converted into an apologetic answer embedding the error text.
Second component counts calls to the generation capability. -/
def generateAnswerStep (env : Env) (t : Nat) (s : AgentState) :
    AgentState × Nat :=
  let all := combineResults s
  if all = [] then
    ({ s with answer := some noResultsMsg }, 0)
  else
    match env.generateFn t s.question all with
    | Except.ok ans => ({ s with answer := some ans }, 1)
    | Except.error e =>
      let msg := "Xin lỗi, đã xảy ra lỗi khi tạo câu trả lời: " ++ e
      ({ s with answer := some msg }, 1)

/-- The outcomes of `_route_after_decide` (lines 552–579): the strings
"refine", "web_search", "search", "answer", "end". -/
inductive DecideRoute where
  | refine
  | webSearch
  | search
  | answer
  | finish
deriving DecidableEq, Repr

/-- The outcomes of `_route_after_search` (lines 581–607): the strings
"continue", "answer", "end". -/
inductive SearchRoute where
  | continueLoop
  | answer
  | finish
deriving DecidableEq, Repr

/-- `_route_after_decide`: stop (to answer or end, by presence of any
results) when should_continue is false; otherwise refine, then web search,
then internal search. -/
def routeAfterDecide (s : AgentState) : DecideRoute :=
  if s.shouldContinue = false then
    if s.searchResults ≠ [] ∨ s.webResults ≠ [] then DecideRoute.answer
    else DecideRoute.finish
  else if s.needsRefinement = true then DecideRoute.refine
  else if s.useWebSearch = true then DecideRoute.webSearch
  else DecideRoute.search

/-- `_route_after_search`: at max_iterations, answer if internal results
exist, otherwise end; below max_iterations, end if internal results are
empty, otherwise loop back to the decision node.  Only the internal result
list is inspected. -/
def routeAfterSearch (s : AgentState) : SearchRoute :=
  if s.maxIterations ≤ s.iteration then
    if s.searchResults ≠ [] then SearchRoute.answer else SearchRoute.finish
  else if s.searchResults = [] then SearchRoute.finish
  else SearchRoute.continueLoop

/-- Workflow nodes plus the two terminal states: `ended` is END reached
without generating an answer, `finished` is END reached after
generate_answer (whose outgoing edge is unconditional). -/
inductive Node where
  | decideAction
  | refineQuery
  | search
  | searchWeb
  | generateAnswer
  | finished
  | ended
deriving DecidableEq, Repr

/-- Edge targets of the conditional edges out of decide_action
(`_build_workflow`, lines 179–189). -/
def nodeOfDecideRoute : DecideRoute → Node
  | DecideRoute.refine => Node.refineQuery
  | DecideRoute.webSearch => Node.searchWeb
  | DecideRoute.search => Node.search
  | DecideRoute.answer => Node.generateAnswer
  | DecideRoute.finish => Node.ended

/-- Edge targets of the conditional edges out of search and search_web
(`_build_workflow`, lines 194–213): both use `_route_after_search`. -/
def nodeOfSearchRoute : SearchRoute → Node
  | SearchRoute.continueLoop => Node.decideAction
  | SearchRoute.answer => Node.generateAnswer
  | SearchRoute.finish => Node.ended

/-- A configuration of the compiled workflow: the node about to execute,
the current state, and the tick (number of node transitions so far). -/
structure Config where
  node : Node
  state : AgentState
  tick : Nat
deriving DecidableEq, Repr

/-- One node transition of the compiled workflow: execute the current node
on the state and follow the edge chosen by the corresponding router
(`_build_workflow`, lines 164–217).  refine_query has an unconditional edge
to search; generate_answer has an unconditional edge to END; terminal
configurations are fixed points. -/
def stepConfig (eweb : Bool) (env : Env) (c : Config) : Config :=
  match c.node with
  | Node.decideAction =>
    let s := (decideAction eweb env c.tick c.state).1
    { node := nodeOfDecideRoute (routeAfterDecide s), state := s,
      tick := c.tick + 1 }
  | Node.refineQuery =>
    { node := Node.search, state := refineStep env c.tick c.state,
      tick := c.tick + 1 }
  | Node.search =>
    let s := searchStep env c.tick c.state
    { node := nodeOfSearchRoute (routeAfterSearch s), state := s,
      tick := c.tick + 1 }
  | Node.searchWeb =>
    let s := searchWebStep eweb env c.tick c.state
    { node := nodeOfSearchRoute (routeAfterSearch s), state := s,
      tick := c.tick + 1 }
  | Node.generateAnswer =>
    { node := Node.finished,
      state := (generateAnswerStep env c.tick c.state).1,
      tick := c.tick + 1 }
  | Node.finished => c
  | Node.ended => c

/-- Iterate the step function. -/
def stepN (eweb : Bool) (env : Env) : Nat → Config → Config
  | 0, c => c
  | n + 1, c => stepN eweb env n (stepConfig eweb env c)

/-- A configuration is terminal when the workflow has reached END. -/
def isTerminal (c : Config) : Bool :=
  c.node = Node.finished || c.node = Node.ended

/-- The initial state built by `query()` (lines 622–634). -/
def initState (question : String) (maxIter : Nat) : AgentState :=
  { question := question, query := question, searchResults := [],
    webResults := [], answer := none, iteration := 0,
    maxIterations := maxIter, needsRefinement := false,
    shouldContinue := true, useWebSearch := false }

/-- The workflow entry: decide_action on the fresh state. -/
def initConfig (question : String) (maxIter : Nat) : Config :=
  { node := Node.decideAction, state := initState question maxIter,
    tick := 0 }

/-- The default answer string of `query()`'s response envelope
(line 646). -/
def defaultNoAnswerMsg : String := "Không thể tạo câu trả lời."

/-- The response envelope of `query()` (lines 645–651).  Every key read by
`final_state.get(key, default)` is present in the final state (all are
initialized at lines 622–634 and never deleted), so each field is the final
state's value; in particular the `answer` field is the stored
optional answer and the default string is unreachable. -/
structure QueryEnvelope where
  answer : Option String
  searchResults : List DocItem
  webResults : List WebItem
  iterations : Nat
  queryUsed : String
deriving DecidableEq, Repr

/-- Build the response envelope from the final state. -/
def queryEnvelope (finalState : AgentState) : QueryEnvelope :=
  { answer := finalState.answer, searchResults := finalState.searchResults,
    webResults := finalState.webResults, iterations := finalState.iteration,
    queryUsed := finalState.query }

/-- All-success environment used to exercise the theorems on concrete runs. -/
def okEnv : Env :=
  { decideLLM := fun _ _ => Except.ok "answer",
    refineLLM := fun _ _ => Except.ok "câu truy vấn",
    searchFn := fun _ _ => Except.ok [],
    webFn := fun _ _ => Except.ok [],
    generateFn := fun _ _ _ => Except.ok "nội dung trả lời" }

/-- Environment whose decision capability always fails. -/
def errEnv : Env :=
  { decideLLM := fun _ _ => Except.error "timeout",
    refineLLM := fun _ _ => Except.error "timeout",
    searchFn := fun _ _ => Except.ok [],
    webFn := fun _ _ => Except.ok [],
    generateFn := fun _ _ _ => Except.error "timeout" }

/-- Adversarial environment, independent of the tick: the internal search
succeeds (with one result) only for the original query "q" and fails for
every other query; the decision capability always answers "refine", and
the refine capability always produces the query "q2".  After the one
successful search, the workflow cycles decide_action → refine_query →
search forever: the failing searches never advance the iteration counter
and never change the state. -/
def advEnv : Env :=
  { decideLLM := fun _ _ => Except.ok "refine",
    refineLLM := fun _ _ => Except.ok "q2",
    searchFn := fun _ q =>
      if q = "q" then Except.ok [{ text := "điều 1", meta := "m" }]
      else Except.error "down",
    webFn := fun _ _ => Except.error "down",
    generateFn := fun _ _ _ => Except.error "down" }

/-- The state the adversarial run settles into after its one successful
search and first refinement. -/
def advS3 : AgentState :=
  { question := "q", query := "q2",
    searchResults := [{ text := "điều 1", meta := "m" }], webResults := [],
    answer := none, iteration := 1, maxIterations := 3,
    needsRefinement := true, shouldContinue := true, useWebSearch := false }

/-- An environment where every internal and web retrieval call issued by
the workflow succeeds (the decision, refine and generation calls may still
fail arbitrarily). -/
def SuccessOnly (env : Env) : Prop :=
  ∀ t q, (∃ rs, env.searchFn t q = Except.ok rs) ∧
    (∃ ws, env.webFn t q = Except.ok ws)

/-- `_decide_action` reaches its LLM call exactly when none of the three
deterministic early-return branches fires. -/
def decideCallIssued (eweb : Bool) (s : AgentState) : Prop :=
  ¬(s.maxIterations ≤ s.iteration) ∧
  ¬(s.searchResults = [] ∧ s.webResults = []) ∧
  ¬(eweb = true ∧ 2 ≤ s.iteration ∧ s.webResults = [] ∧
    containsSpecificDataQuery s.question = true)

/-- Basic invariant of a run with maximum iteration count `m`: the bound is
constant, iteration never exceeds it, and at the three nodes that may
increment it, it is still strictly below it. -/
def Inv2 (m : Nat) (c : Config) : Prop :=
  c.state.maxIterations = m ∧ c.state.iteration ≤ m ∧
  ((c.node = Node.refineQuery ∨ c.node = Node.search ∨
      c.node = Node.searchWeb) → c.state.iteration < m)

/-- Strengthened invariant for the termination argument: additionally the
use_web_search flag, and presence at the search_web node, imply that web
search is enabled. -/
def InvT (eweb : Bool) (m : Nat) (c : Config) : Prop :=
  Inv2 m c ∧ (c.state.useWebSearch = true → eweb = true) ∧
  (c.node = Node.searchWeb → eweb = true)

/-- Rank of a node within one decide/refine/search round. -/
def nodeRank : Node → Nat
  | Node.decideAction => 2
  | Node.refineQuery => 1
  | _ => 0

/-- Termination measure: strictly decreases along every transition of a
run in which retrieval calls succeed. -/
def configMeasure (c : Config) : Nat :=
  if isTerminal c = true then 0
  else 3 * (c.state.maxIterations - c.state.iteration) + nodeRank c.node + 1

theorem dedupMergeLoop_eq {α : Type} (key : α → String) :
    ∀ (rest : List α) (seen : List String) (acc : List α),
      (∀ r ∈ rest, key r ∉ seen → key r ≠ "") →
      List.Pairwise (fun a b => key a ≠ key b)
        (rest.filter (fun r => decide (key r ∉ seen))) →
      dedupMergeLoop key rest seen acc =
        acc ++ rest.filter (fun r => decide (key r ∉ seen)) := by
  intro rest
  induction rest with
  | nil => intro seen acc _ _; simp [dedupMergeLoop]
  | cons r rs ih =>
    intro seen acc h1 h2
    by_cases hmem : key r ∈ seen
    · have hcond : ¬(key r ≠ "" ∧ key r ∉ seen) := by tauto
      have hfilt : (r :: rs).filter (fun x => decide (key x ∉ seen)) =
          rs.filter (fun x => decide (key x ∉ seen)) := by
        simp [List.filter_cons, hmem]
      rw [hfilt] at h2
      simp only [dedupMergeLoop]
      rw [if_neg hcond, hfilt]
      exact ih seen acc (fun x hx => h1 x (List.mem_cons_of_mem r hx)) h2
    · have hne : key r ≠ "" := h1 r (List.mem_cons_self r rs) hmem
      have hcond : key r ≠ "" ∧ key r ∉ seen := ⟨hne, hmem⟩
      have hfilt : (r :: rs).filter (fun x => decide (key x ∉ seen)) =
          r :: rs.filter (fun x => decide (key x ∉ seen)) := by
        simp [List.filter_cons, hmem]
      rw [hfilt] at h2
      obtain ⟨hr, h2'⟩ := List.pairwise_cons.mp h2
      have hfeq : rs.filter (fun x => decide (key x ∉ key r :: seen)) =
          rs.filter (fun x => decide (key x ∉ seen)) := by
        apply List.filter_congr
        intro x hx
        by_cases hxs : key x ∈ seen
        · simp [hxs]
        · have hxf : x ∈ rs.filter (fun r2 => decide (key r2 ∉ seen)) :=
            List.mem_filter.mpr ⟨hx, by simp [hxs]⟩
          have hxr : key x ≠ key r := fun hh => (hr x hxf) hh.symm
          simp [hxs, hxr]
      have ih1 : ∀ x ∈ rs, key x ∉ key r :: seen → key x ≠ "" := by
        intro x hx hxn
        exact h1 x (List.mem_cons_of_mem r hx)
          (fun hmem2 => hxn (List.mem_cons_of_mem _ hmem2))
      have ih2 : List.Pairwise (fun a b => key a ≠ key b)
          (rs.filter (fun x => decide (key x ∉ key r :: seen))) := by
        rw [hfeq]; exact h2'
      simp only [dedupMergeLoop]
      rw [if_pos hcond, ih (key r :: seen) (acc ++ [r]) ih1 ih2, hfeq, hfilt]
      simp

theorem dedupMerge_eq {α : Type} (key : α → String)
    (existing incoming : List α)
    (h1 : ∀ r ∈ incoming, key r ∉ existing.map key → key r ≠ "")
    (h2 : List.Pairwise (fun a b => key a ≠ key b)
      (incoming.filter (fun r => decide (key r ∉ existing.map key)))) :
    dedupMerge key existing incoming =
      existing ++ incoming.filter
        (fun r => decide (key r ∉ existing.map key)) := by
  cases existing with
  | nil => simp [dedupMerge]
  | cons x xs =>
    exact dedupMergeLoop_eq key incoming ((x :: xs).map key) (x :: xs) h1 h2

theorem dedupMergeLoop_extra {α : Type} (key : α → String) :
    ∀ (rest : List α) (seen : List String) (acc : List α),
      ∃ extra, dedupMergeLoop key rest seen acc = acc ++ extra ∧
        ∀ r ∈ extra, key r ≠ "" ∧ key r ∉ seen := by
  intro rest
  induction rest with
  | nil => intro seen acc; exact ⟨[], by simp [dedupMergeLoop], by simp⟩
  | cons r rs ih =>
    intro seen acc
    by_cases hc : key r ≠ "" ∧ key r ∉ seen
    · obtain ⟨extra, heq, hp⟩ := ih (key r :: seen) (acc ++ [r])
      refine ⟨r :: extra, ?_, ?_⟩
      · simp only [dedupMergeLoop]
        rw [if_pos hc, heq]
        simp
      · intro x hx
        rcases List.mem_cons.mp hx with hx0 | hx'
        · subst hx0; exact hc
        · have hx2 := hp x hx'
          exact ⟨hx2.1, fun hmem => hx2.2 (List.mem_cons_of_mem _ hmem)⟩
    · obtain ⟨extra, heq, hp⟩ := ih seen acc
      refine ⟨extra, ?_, hp⟩
      simp only [dedupMergeLoop]
      rw [if_neg hc]
      exact heq

theorem dedupMerge_split {α : Type} (key : α → String)
    (existing incoming : List α) (hne : existing ≠ []) :
    (dedupMerge key existing incoming).take existing.length = existing ∧
    ∀ r ∈ (dedupMerge key existing incoming).drop existing.length,
      key r ≠ "" ∧ key r ∉ existing.map key := by
  obtain ⟨x, xs, rfl⟩ := List.exists_cons_of_ne_nil hne
  obtain ⟨extra, heq, hprop⟩ :=
    dedupMergeLoop_extra key incoming ((x :: xs).map key) (x :: xs)
  have hdm : dedupMerge key (x :: xs) incoming =
      (x :: xs) ++ extra := heq
  rw [hdm]
  exact ⟨List.take_left (x :: xs) extra,
    fun r hr => hprop r (by simpa using hr)⟩

theorem decideAction_shape (eweb : Bool) (env : Env) (t : Nat)
    (s : AgentState) :
    (decideAction eweb env t s).1 =
      { s with needsRefinement := (decideFlags eweb env t s).1.1,
               shouldContinue := (decideFlags eweb env t s).1.2.1,
               useWebSearch := (decideFlags eweb env t s).1.2.2 } := rfl

theorem refineStep_shape (env : Env) (t : Nat) (s : AgentState) :
    ∃ q2, refineStep env t s = { s with query := q2 } := by
  unfold refineStep
  cases env.refineLLM t s with
  | error e => exact ⟨s.query, rfl⟩
  | ok r => exact ⟨_, rfl⟩

theorem searchStep_shape (env : Env) (t : Nat) (s : AgentState) :
    (∃ rs2, searchStep env t s =
      { s with searchResults := rs2, iteration := s.iteration + 1 }) ∨
    searchStep env t s = s := by
  unfold searchStep
  cases env.searchFn t s.query with
  | error e => right; rfl
  | ok rs => left; exact ⟨_, rfl⟩

theorem searchStep_ok (env : Env) (t : Nat) (s : AgentState)
    (rs : List DocItem) (h : env.searchFn t s.query = Except.ok rs) :
    searchStep env t s =
      { s with searchResults := mergeSearchResults s.searchResults rs,
               iteration := s.iteration + 1 } := by
  unfold searchStep
  rw [h]

theorem searchWebStep_shape (eweb : Bool) (env : Env) (t : Nat)
    (s : AgentState) :
    (∃ ws2, searchWebStep eweb env t s =
      { s with webResults := ws2, iteration := s.iteration + 1 }) ∨
    searchWebStep eweb env t s = s := by
  unfold searchWebStep
  cases eweb with
  | false => right; rfl
  | true =>
    cases env.webFn t s.query with
    | error e => right; rfl
    | ok ws => left; exact ⟨_, rfl⟩

theorem searchWebStep_ok (env : Env) (t : Nat) (s : AgentState)
    (ws : List WebItem) (h : env.webFn t s.query = Except.ok ws) :
    searchWebStep true env t s =
      { s with webResults := mergeWebResults s.webResults ws,
               iteration := s.iteration + 1 } := by
  unfold searchWebStep
  rw [h]
  simp

theorem generateAnswerStep_shape (env : Env) (t : Nat) (s : AgentState) :
    ∃ a, (generateAnswerStep env t s).1 = { s with answer := some a } := by
  unfold generateAnswerStep
  by_cases h : combineResults s = []
  · rw [if_pos h]; exact ⟨noResultsMsg, rfl⟩
  · rw [if_neg h]
    cases env.generateFn t s.question (combineResults s) with
    | error e => exact ⟨_, rfl⟩
    | ok a => exact ⟨a, rfl⟩

theorem decideFlags_sc_true_lt (eweb : Bool) (env : Env) (t : Nat)
    (s : AgentState) (h : (decideFlags eweb env t s).1.2.1 = true) :
    s.iteration < s.maxIterations := by
  unfold decideFlags at h
  split at h
  · simp at h
  · omega

theorem decideFlags_uw_true (eweb : Bool) (env : Env) (t : Nat)
    (s : AgentState) (h : (decideFlags eweb env t s).1.2.2 = true) :
    eweb = true ∨ s.useWebSearch = true := by
  unfold decideFlags at h
  split at h
  · right; simpa using h
  · split at h
    · simp at h
    · split at h
      · left; tauto
      · split at h
        · dsimp only at h
          split at h
          · simp at h
          · split at h
            · left; tauto
            · split at h
              · simp at h
              · simp at h
        · split at h
          · simp at h
          · simp at h

theorem stepN_succ_out (eweb : Bool) (env : Env) (n : Nat) (c : Config) :
    stepN eweb env (n + 1) c = stepConfig eweb env (stepN eweb env n c) := by
  induction n generalizing c with
  | zero => rfl
  | succ k ih =>
    show stepN eweb env (k + 1) (stepConfig eweb env c) =
      stepConfig eweb env (stepN eweb env (k + 1) c)
    rw [ih (stepConfig eweb env c)]
    rfl

theorem stepConfig_terminal (eweb : Bool) (env : Env) (c : Config)
    (h : isTerminal c = true) : stepConfig eweb env c = c := by
  obtain ⟨nd, s, t⟩ := c
  cases nd <;> simp [isTerminal] at h <;> rfl

theorem stepN_terminal (eweb : Bool) (env : Env) (n : Nat) (c : Config)
    (h : isTerminal c = true) : stepN eweb env n c = c := by
  induction n with
  | zero => rfl
  | succ k ih =>
    rw [stepN_succ_out, ih, stepConfig_terminal eweb env c h]

theorem stepConfig_iteration_mono (eweb : Bool) (env : Env) (c : Config) :
    c.state.iteration ≤ (stepConfig eweb env c).state.iteration := by
  obtain ⟨nd, s, t⟩ := c
  cases nd
  case decideAction => exact le_rfl
  case refineQuery =>
    obtain ⟨q2, hq⟩ := refineStep_shape env t s
    simp [stepConfig, hq]
  case search =>
    rcases searchStep_shape env t s with ⟨rs2, hs⟩ | hs <;>
      simp [stepConfig, hs]
  case searchWeb =>
    rcases searchWebStep_shape eweb env t s with ⟨ws2, hs⟩ | hs <;>
      simp [stepConfig, hs]
  case generateAnswer =>
    obtain ⟨a, ha⟩ := generateAnswerStep_shape env t s
    simp [stepConfig, ha]
  case finished => exact le_rfl
  case ended => exact le_rfl

theorem inv2_init (q : String) (m : Nat) : Inv2 m (initConfig q m) := by
  refine ⟨rfl, Nat.zero_le m, ?_⟩
  intro h
  simp [initConfig] at h

theorem inv2_step (eweb : Bool) (env : Env) (m : Nat) (c : Config)
    (h : Inv2 m c) : Inv2 m (stepConfig eweb env c) := by
  obtain ⟨nd, s, t⟩ := c
  obtain ⟨hm, hle, hnode⟩ := h
  dsimp only at hm hle hnode
  cases nd
  case decideAction =>
    refine ⟨hm, hle, ?_⟩
    intro hn
    have hstep : (stepConfig eweb env
        { node := Node.decideAction, state := s, tick := t }).node =
        nodeOfDecideRoute (routeAfterDecide (decideAction eweb env t s).1) :=
      rfl
    rw [hstep] at hn
    have hsc : (decideFlags eweb env t s).1.2.1 = true := by
      cases hb : (decideFlags eweb env t s).1.2.1
      · exfalso
        have hscf : (decideAction eweb env t s).1.shouldContinue = false := hb
        have hroute : routeAfterDecide (decideAction eweb env t s).1 =
            DecideRoute.answer ∨
            routeAfterDecide (decideAction eweb env t s).1 =
            DecideRoute.finish := by
          unfold routeAfterDecide
          rw [hscf, if_pos rfl]
          split
          · exact Or.inl rfl
          · exact Or.inr rfl
        rcases hroute with hr | hr <;> rw [hr] at hn <;>
          simp [nodeOfDecideRoute] at hn
      · rfl
    have hlt := decideFlags_sc_true_lt eweb env t s hsc
    show (decideAction eweb env t s).1.iteration < m
    have hit : (decideAction eweb env t s).1.iteration = s.iteration := rfl
    omega
  case refineQuery =>
    obtain ⟨q2, hq⟩ := refineStep_shape env t s
    have hlt : s.iteration < m := hnode (Or.inl rfl)
    refine ⟨?_, ?_, ?_⟩
    · show (refineStep env t s).maxIterations = m
      rw [hq]; exact hm
    · show (refineStep env t s).iteration ≤ m
      rw [hq]; exact hle
    · intro _
      show (refineStep env t s).iteration < m
      rw [hq]; exact hlt
  case search =>
    have hlt : s.iteration < m := hnode (Or.inr (Or.inl rfl))
    have hstep : stepConfig eweb env
        { node := Node.search, state := s, tick := t } =
        { node := nodeOfSearchRoute (routeAfterSearch (searchStep env t s)),
          state := searchStep env t s, tick := t + 1 } := rfl
    rw [hstep]
    rcases searchStep_shape env t s with ⟨rs2, hs⟩ | hs <;> rw [hs]
    · refine ⟨hm, ?_, ?_⟩
      · show s.iteration + 1 ≤ m
        omega
      · intro hn
        dsimp only at hn
        cases hroute : routeAfterSearch
            { s with searchResults := rs2, iteration := s.iteration + 1 } <;>
          rw [hroute] at hn <;> simp [nodeOfSearchRoute] at hn
    · refine ⟨hm, hle, ?_⟩
      intro hn
      dsimp only at hn
      cases hroute : routeAfterSearch s <;>
        rw [hroute] at hn <;> simp [nodeOfSearchRoute] at hn
  case searchWeb =>
    have hlt : s.iteration < m := hnode (Or.inr (Or.inr rfl))
    have hstep : stepConfig eweb env
        { node := Node.searchWeb, state := s, tick := t } =
        { node := nodeOfSearchRoute
            (routeAfterSearch (searchWebStep eweb env t s)),
          state := searchWebStep eweb env t s, tick := t + 1 } := rfl
    rw [hstep]
    rcases searchWebStep_shape eweb env t s with ⟨ws2, hs⟩ | hs <;> rw [hs]
    · refine ⟨hm, ?_, ?_⟩
      · show s.iteration + 1 ≤ m
        omega
      · intro hn
        dsimp only at hn
        cases hroute : routeAfterSearch
            { s with webResults := ws2, iteration := s.iteration + 1 } <;>
          rw [hroute] at hn <;> simp [nodeOfSearchRoute] at hn
    · refine ⟨hm, hle, ?_⟩
      intro hn
      dsimp only at hn
      cases hroute : routeAfterSearch s <;>
        rw [hroute] at hn <;> simp [nodeOfSearchRoute] at hn
  case generateAnswer =>
    obtain ⟨a, ha⟩ := generateAnswerStep_shape env t s
    have hstep : stepConfig eweb env
        { node := Node.generateAnswer, state := s, tick := t } =
        { node := Node.finished, state := (generateAnswerStep env t s).1,
          tick := t + 1 } := rfl
    rw [hstep, ha]
    refine ⟨hm, hle, ?_⟩
    intro hn
    dsimp only at hn
    rcases hn with hn | hn | hn <;> simp at hn
  case finished => exact ⟨hm, hle, hnode⟩
  case ended => exact ⟨hm, hle, hnode⟩

theorem invT_measure_step (eweb : Bool) (env : Env) (m : Nat) (c : Config)
    (hs : SuccessOnly env) (hI : InvT eweb m c) (hnt : isTerminal c = false) :
    InvT eweb m (stepConfig eweb env c) ∧
    configMeasure (stepConfig eweb env c) < configMeasure c := by
  have h2' : Inv2 m (stepConfig eweb env c) := inv2_step eweb env m c hI.1
  obtain ⟨⟨hm, hle, hnode⟩, huw, hweb⟩ := hI
  obtain ⟨nd, s, t⟩ := c
  dsimp only at hm hle hnode huw hweb
  cases nd
  case decideAction =>
    have e1 : (decideAction eweb env t s).1.maxIterations =
        s.maxIterations := rfl
    have e2 : (decideAction eweb env t s).1.iteration = s.iteration := rfl
    have hstep : stepConfig eweb env
        { node := Node.decideAction, state := s, tick := t } =
        { node := nodeOfDecideRoute
            (routeAfterDecide (decideAction eweb env t s).1),
          state := (decideAction eweb env t s).1, tick := t + 1 } := rfl
    refine ⟨⟨h2', ?_, ?_⟩, ?_⟩
    · intro hu
      have hu2 : (decideFlags eweb env t s).1.2.2 = true := hu
      rcases decideFlags_uw_true eweb env t s hu2 with h | h
      · exact h
      · exact huw h
    · intro hw
      rw [hstep] at hw
      dsimp only at hw
      cases hr : routeAfterDecide (decideAction eweb env t s).1 <;>
        rw [hr] at hw <;> simp [nodeOfDecideRoute] at hw
      case webSearch =>
        cases hu : (decideAction eweb env t s).1.useWebSearch
        · exfalso
          unfold routeAfterDecide at hr
          rw [hu] at hr
          split at hr
          · split at hr <;> simp at hr
          · split at hr
            · simp at hr
            · simp at hr
        · have hu2 : (decideFlags eweb env t s).1.2.2 = true := hu
          rcases decideFlags_uw_true eweb env t s hu2 with h | h
          · exact h
          · exact huw h
    · rw [hstep]
      cases hr : routeAfterDecide (decideAction eweb env t s).1 <;>
        simp [configMeasure, isTerminal, nodeOfDecideRoute, nodeRank,
          e1, e2] <;> omega
  case refineQuery =>
    obtain ⟨q2, hq⟩ := refineStep_shape env t s
    have hstep : stepConfig eweb env
        { node := Node.refineQuery, state := s, tick := t } =
        { node := Node.search, state := refineStep env t s,
          tick := t + 1 } := rfl
    refine ⟨⟨h2', ?_, ?_⟩, ?_⟩
    · intro hu
      rw [hstep] at hu
      dsimp only at hu
      rw [hq] at hu
      exact huw hu
    · intro hw
      rw [hstep] at hw
      dsimp only at hw
      simp at hw
    · rw [hstep, hq]
      simp [configMeasure, isTerminal, nodeRank]
  case search =>
    have hlt : s.iteration < m := hnode (Or.inr (Or.inl rfl))
    obtain ⟨rs, hok⟩ := (hs t s.query).1
    have hsearch := searchStep_ok env t s rs hok
    have hstep : stepConfig eweb env
        { node := Node.search, state := s, tick := t } =
        { node := nodeOfSearchRoute (routeAfterSearch (searchStep env t s)),
          state := searchStep env t s, tick := t + 1 } := rfl
    refine ⟨⟨h2', ?_, ?_⟩, ?_⟩
    · intro hu
      rw [hstep] at hu
      dsimp only at hu
      rw [hsearch] at hu
      exact huw hu
    · intro hw
      rw [hstep] at hw
      dsimp only at hw
      cases hr : routeAfterSearch (searchStep env t s) <;>
        rw [hr] at hw <;> simp [nodeOfSearchRoute] at hw
    · rw [hstep, hsearch]
      cases hr : routeAfterSearch
          { s with searchResults := mergeSearchResults s.searchResults rs,
                   iteration := s.iteration + 1 } <;>
        simp [configMeasure, isTerminal, nodeOfSearchRoute, nodeRank] <;>
        omega
  case searchWeb =>
    have heweb : eweb = true := hweb rfl
    subst heweb
    have hlt : s.iteration < m := hnode (Or.inr (Or.inr rfl))
    obtain ⟨ws, hok⟩ := (hs t s.query).2
    have hsearch := searchWebStep_ok env t s ws hok
    have hstep : stepConfig true env
        { node := Node.searchWeb, state := s, tick := t } =
        { node := nodeOfSearchRoute
            (routeAfterSearch (searchWebStep true env t s)),
          state := searchWebStep true env t s, tick := t + 1 } := rfl
    refine ⟨⟨h2', ?_, ?_⟩, ?_⟩
    · intro _
      rfl
    · intro _
      rfl
    · rw [hstep, hsearch]
      cases hr : routeAfterSearch
          { s with webResults := mergeWebResults s.webResults ws,
                   iteration := s.iteration + 1 } <;>
        simp [configMeasure, isTerminal, nodeOfSearchRoute, nodeRank] <;>
        omega
  case generateAnswer =>
    obtain ⟨a, ha⟩ := generateAnswerStep_shape env t s
    have hstep : stepConfig eweb env
        { node := Node.generateAnswer, state := s, tick := t } =
        { node := Node.finished, state := (generateAnswerStep env t s).1,
          tick := t + 1 } := rfl
    refine ⟨⟨h2', ?_, ?_⟩, ?_⟩
    · intro hu
      rw [hstep] at hu
      dsimp only at hu
      rw [ha] at hu
      exact huw hu
    · intro hw
      rw [hstep] at hw
      dsimp only at hw
      simp at hw
    · rw [hstep]
      simp [configMeasure, isTerminal, nodeRank]
  case finished => simp [isTerminal] at hnt
  case ended => simp [isTerminal] at hnt

theorem inv2_run (eweb : Bool) (env : Env) (q : String) (m : Nat) :
    ∀ n, Inv2 m (stepN eweb env n (initConfig q m)) := by
  intro n
  induction n with
  | zero => exact inv2_init q m
  | succ k ih =>
    rw [stepN_succ_out]
    exact inv2_step eweb env m _ ih

theorem terminal_within (eweb : Bool) (env : Env) (m : Nat)
    (hs : SuccessOnly env) :
    ∀ (fuel : Nat) (c : Config), InvT eweb m c → configMeasure c ≤ fuel →
      isTerminal (stepN eweb env fuel c) = true := by
  intro fuel
  induction fuel with
  | zero =>
    intro c hI hle
    cases ht : isTerminal c
    · exfalso
      simp [configMeasure, ht] at hle
    · exact ht
  | succ k ih =>
    intro c hI hle
    cases ht : isTerminal c
    · have hstep := invT_measure_step eweb env m c hs hI ht
      show isTerminal (stepN eweb env k (stepConfig eweb env c)) = true
      exact ih (stepConfig eweb env c) hstep.1 (by omega)
    · rw [stepN_terminal eweb env (k + 1) c ht]
      exact ht

theorem adv_step_decide (t : Nat) :
    stepConfig false advEnv
      { node := Node.decideAction, state := advS3, tick := t } =
      { node := Node.refineQuery, state := advS3, tick := t + 1 } := rfl

theorem adv_step_refine (t : Nat) :
    stepConfig false advEnv
      { node := Node.refineQuery, state := advS3, tick := t } =
      { node := Node.search, state := advS3, tick := t + 1 } := rfl

theorem adv_step_search (t : Nat) :
    stepConfig false advEnv
      { node := Node.search, state := advS3, tick := t } =
      { node := Node.decideAction, state := advS3, tick := t + 1 } := rfl

theorem adv_cycle : ∀ k,
    stepN false advEnv (3 * k + 5) (initConfig "q" 3) =
      { node := Node.decideAction, state := advS3, tick := 3 * k + 5 } := by
  intro k
  induction k with
  | zero => decide
  | succ j ih =>
    have h1 : 3 * (j + 1) + 5 = (3 * j + 5) + 1 + 1 + 1 := by omega
    rw [h1, stepN_succ_out, stepN_succ_out, stepN_succ_out, ih,
      adv_step_decide, adv_step_refine, adv_step_search]

theorem adv_never_terminal : ∀ n,
    isTerminal (stepN false advEnv n (initConfig "q" 3)) = false := by
  intro n
  rcases Nat.lt_or_ge n 5 with h | h
  · interval_cases n <;> decide
  · obtain ⟨j, hj⟩ : ∃ j, n = 3 * j + 5 ∨ n = 3 * j + 6 ∨ n = 3 * j + 7 := by
      refine ⟨(n - 5) / 3, ?_⟩
      omega
    rcases hj with rfl | rfl | rfl
    · rw [adv_cycle]
      rfl
    · have h6 : 3 * j + 6 = (3 * j + 5) + 1 := by omega
      rw [h6, stepN_succ_out, adv_cycle, adv_step_decide]
      rfl
    · have h7 : 3 * j + 7 = (3 * j + 5) + 1 + 1 := by omega
      rw [h7, stepN_succ_out, stepN_succ_out, adv_cycle, adv_step_decide,
        adv_step_refine]
      rfl

theorem answer_none_step (eweb : Bool) (env : Env) (c : Config)
    (h : c.node ≠ Node.finished → c.state.answer = none) :
    (stepConfig eweb env c).node ≠ Node.finished →
      (stepConfig eweb env c).state.answer = none := by
  obtain ⟨nd, s, t⟩ := c
  cases nd
  case decideAction =>
    intro _
    have ha : s.answer = none := h (by simp)
    exact ha
  case refineQuery =>
    intro _
    obtain ⟨q2, hq⟩ := refineStep_shape env t s
    have ha : s.answer = none := h (by simp)
    show (refineStep env t s).answer = none
    rw [hq]
    exact ha
  case search =>
    intro _
    have ha : s.answer = none := h (by simp)
    show (searchStep env t s).answer = none
    rcases searchStep_shape env t s with ⟨rs2, hs2⟩ | hs2 <;> rw [hs2] <;>
      exact ha
  case searchWeb =>
    intro _
    have ha : s.answer = none := h (by simp)
    show (searchWebStep eweb env t s).answer = none
    rcases searchWebStep_shape eweb env t s with ⟨ws2, hs2⟩ | hs2 <;>
      rw [hs2] <;> exact ha
  case generateAnswer =>
    intro hn
    exact absurd rfl hn
  case finished => exact h
  case ended => exact h

theorem answer_none_run (eweb : Bool) (env : Env) (q : String) (m : Nat) :
    ∀ n, (stepN eweb env n (initConfig q m)).node ≠ Node.finished →
      (stepN eweb env n (initConfig q m)).state.answer = none := by
  intro n
  induction n with
  | zero => intro _; rfl
  | succ k ih =>
    rw [stepN_succ_out]
    exact answer_none_step eweb env _ ih

/-- Claim C2: in every execution of `query()` — any web-search
configuration and any behaviour of the external capabilities, including
failing ones — the iteration field is monotonically non-decreasing across
node transitions, and at every point (in particular in the final state)
it never exceeds the max_iterations fixed for the run. -/
theorem C2_theorem (eweb : Bool) (env : Env) (q : String) (m n : Nat) :
    (stepN eweb env n (initConfig q m)).state.iteration ≤
      (stepN eweb env (n + 1) (initConfig q m)).state.iteration ∧
    (stepN eweb env n (initConfig q m)).state.iteration ≤ m := by
  constructor
  · rw [stepN_succ_out]
    exact stepConfig_iteration_mono eweb env _
  · exact (inv2_run eweb env q m n).2.1

/-- Claim C9: whenever the workflow terminates at END without executing
generate_answer (node `ended`), the answer field of the final state is
still `none`, so the envelope built by `query()` carries answer = None and
never the fallback string `defaultNoAnswerMsg` supplied as the
`.get` default (the answer key is always present, initialized to None). -/
theorem C9_theorem (eweb : Bool) (env : Env) (q : String) (m n : Nat)
    (h : (stepN eweb env n (initConfig q m)).node = Node.ended) :
    (queryEnvelope (stepN eweb env n (initConfig q m)).state).answer =
      none ∧
    (queryEnvelope (stepN eweb env n (initConfig q m)).state).answer ≠
      some defaultNoAnswerMsg := by
  have ha := answer_none_run eweb env q m n (by rw [h]; simp)
  constructor
  · exact ha
  · show (stepN eweb env n (initConfig q m)).state.answer ≠
      some defaultNoAnswerMsg
    rw [ha]
    simp

/-- Witness for C9: with an environment whose first internal search
succeeds with an empty result list, the run reaches `ended` after two
transitions and the envelope's answer is None. -/
theorem C9_witness :
    (stepN false okEnv 2 (initConfig "câu hỏi" 3)).node = Node.ended ∧
    (queryEnvelope (stepN false okEnv 2 (initConfig "câu hỏi" 3)).state).answer
      = none :=
  ⟨by decide, (C9_theorem false okEnv "câu hỏi" 3 2 (by decide)).1⟩

/-- Claim C1, amended: for every max_iterations ≥ 1 and every behaviour of
the external capabilities in which each internal and web retrieval call
issued succeeds (decision, refinement and generation calls may still fail
arbitrarily), a workflow execution started at decide_action reaches a
terminal state within 3 * max_iterations + 3 node transitions.  The
amendment restricts the claim to behaviours without retrieval failures:
as stated (failures included) the claim is refuted by
`C1_counterexample`. -/
theorem C1_theorem (eweb : Bool) (env : Env) (q : String) (m : Nat)
    (hm : 1 ≤ m) (hs : SuccessOnly env) :
    isTerminal (stepN eweb env (3 * m + 3) (initConfig q m)) = true := by
  apply terminal_within eweb env m hs
  · refine ⟨inv2_init q m, ?_, ?_⟩
    · intro hu
      simp [initConfig, initState] at hu
    · intro hw
      simp [initConfig] at hw
  · simp [configMeasure, isTerminal, initConfig, initState, nodeRank]

/-- Witness for C1: the all-success environment with max_iterations = 1
reaches a terminal state within 3 * 1 + 3 transitions. -/
theorem C1_witness :
    (1 ≤ 1 ∧ SuccessOnly okEnv) ∧
    isTerminal (stepN false okEnv (3 * 1 + 3) (initConfig "câu hỏi" 1)) =
      true :=
  ⟨⟨Nat.le_refl 1, fun _ _ => ⟨⟨[], rfl⟩, ⟨[], rfl⟩⟩⟩,
    C1_theorem false okEnv "câu hỏi" 1 (Nat.le_refl 1)
      (fun _ _ => ⟨⟨[], rfl⟩, ⟨[], rfl⟩⟩)⟩

/-- Counterexample to C1 as stated: under `advEnv` — whose oracles ignore
the tick, so the node/state evolution is autonomous — with
max_iterations = 3, the run's node and state after 7 transitions equal
those after 4 transitions while configurations 4, 5 and 6 are all
non-terminal; since the step function is deterministic and the oracles are
tick-independent, the run cycles decide_action → refine_query → search
among non-terminal configurations forever (see `adv_never_terminal`),
refuting any bound linear in max_iterations.  The cause: failing retrieval
calls do not advance the iteration counter. -/
theorem C1_counterexample :
    (stepN false advEnv 7 (initConfig "q" 3)).node =
      (stepN false advEnv 4 (initConfig "q" 3)).node ∧
    (stepN false advEnv 7 (initConfig "q" 3)).state =
      (stepN false advEnv 4 (initConfig "q" 3)).state ∧
    isTerminal (stepN false advEnv 4 (initConfig "q" 3)) = false ∧
    isTerminal (stepN false advEnv 5 (initConfig "q" 3)) = false ∧
    isTerminal (stepN false advEnv 6 (initConfig "q" 3)) = false := by
  decide


/-- Counterexample to C3 as stated: with accumulated list [("a")] and an
incoming item whose text is the empty string — a "new" text (it does not
occur in the accumulated list) that is trivially pairwise-distinct — the
merge skips the item (the code filters falsy texts), so the accumulated
list is unchanged and its length is 1, not the claimed 1 + 1. -/
theorem C3_counterexample :
    (("" : String) ∈ ([{ text := "a", meta := "m" }] : List DocItem).map
      DocItem.text → False) ∧
    mergeSearchResults [{ text := "a", meta := "m" }]
      [{ text := "", meta := "n" }] = [{ text := "a", meta := "m" }] ∧
    (mergeSearchResults [{ text := "a", meta := "m" }]
      [{ text := "", meta := "n" }]).length ≠ 2 := by
  decide

/-- Claim C3, amended: for every accumulated internal list and every
incoming list whose items either duplicate an accumulated text or carry
new, pairwise-distinct, non-empty texts, a successful InternalRetriever
step skips the duplicates, appends exactly the new items preserving their
order of arrival, leaves every prior item at its position, and so grows
the list length by exactly the number of new items.  The amendment adds
"non-empty" to the new texts, which the code's falsy-text filter forces
(see `C3_counterexample`). -/
theorem C3_theorem (existing incoming : List DocItem)
    (h1 : ∀ r ∈ incoming, r.text ∉ existing.map DocItem.text →
      r.text ≠ "")
    (h2 : List.Pairwise (fun a b => a.text ≠ b.text)
      (newItems existing incoming)) :
    mergeSearchResults existing incoming =
      existing ++ newItems existing incoming ∧
    (mergeSearchResults existing incoming).length =
      existing.length + (newItems existing incoming).length := by
  have heq : mergeSearchResults existing incoming =
      existing ++ newItems existing incoming :=
    dedupMerge_eq DocItem.text existing incoming h1 h2
  refine ⟨heq, ?_⟩
  rw [heq]
  simp

/-- Witness for C3: one duplicate and two new distinct items — the two new
items are appended in order after the untouched prior item. -/
theorem C3_witness :
    mergeSearchResults [{ text := "a", meta := "m" }]
      [{ text := "a", meta := "x" }, { text := "b", meta := "y" },
        { text := "c", meta := "z" }] =
      [{ text := "a", meta := "m" }] ++
        newItems [{ text := "a", meta := "m" }]
          [{ text := "a", meta := "x" }, { text := "b", meta := "y" },
            { text := "c", meta := "z" }] ∧
    (mergeSearchResults [{ text := "a", meta := "m" }]
      [{ text := "a", meta := "x" }, { text := "b", meta := "y" },
        { text := "c", meta := "z" }]).length =
      ([{ text := "a", meta := "m" }] : List DocItem).length +
        (newItems [{ text := "a", meta := "m" }]
          [{ text := "a", meta := "x" }, { text := "b", meta := "y" },
            { text := "c", meta := "z" }]).length :=
  C3_theorem [{ text := "a", meta := "m" }]
    [{ text := "a", meta := "x" }, { text := "b", meta := "y" },
      { text := "c", meta := "z" }] (by decide) (by decide)

/-- Claim C8: a successful InternalRetriever step whose incoming items all
duplicate (by text) items of the accumulated list leaves the accumulated
list unchanged in content and length (dedup idempotence). -/
theorem C8_theorem (existing incoming : List DocItem)
    (h : ∀ r ∈ incoming, r.text ∈ existing.map DocItem.text) :
    mergeSearchResults existing incoming = existing := by
  have h1 : ∀ r ∈ incoming, r.text ∉ existing.map DocItem.text →
      r.text ≠ "" := fun r hr hn => absurd (h r hr) hn
  have hnew : newItems existing incoming = [] := by
    simp only [newItems, List.filter_eq_nil_iff]
    intro r hr
    simp [h r hr]
  have h2 : List.Pairwise (fun a b => a.text ≠ b.text)
      (newItems existing incoming) := by
    rw [hnew]
    exact List.Pairwise.nil
  have heq : mergeSearchResults existing incoming =
      existing ++ newItems existing incoming :=
    dedupMerge_eq DocItem.text existing incoming h1 h2
  rw [heq, hnew, List.append_nil]

/-- Witness for C8: re-merging a permutation of already-present texts
changes nothing. -/
theorem C8_witness :
    mergeSearchResults
      [{ text := "a", meta := "m" }, { text := "b", meta := "k" }]
      [{ text := "b", meta := "z" }, { text := "a", meta := "w" }] =
      [{ text := "a", meta := "m" }, { text := "b", meta := "k" }] :=
  C8_theorem
    [{ text := "a", meta := "m" }, { text := "b", meta := "k" }]
    [{ text := "b", meta := "z" }, { text := "a", meta := "w" }]
    (by decide)

/-- Claim C10: when the accumulated list is empty, a successful retrieval
step adopts the incoming list verbatim — no intra-list deduplication, no
filtering of empty texts — whereas every merge into a non-empty
accumulated list keeps the prior items as an unchanged prefix and appends
only items whose key is non-empty and not already present; the same
asymmetry holds for the web merge keyed on content. -/
theorem C10_theorem (existing incoming : List DocItem)
    (wexisting wincoming : List WebItem) :
    mergeSearchResults [] incoming = incoming ∧
    (existing ≠ [] →
      (mergeSearchResults existing incoming).take existing.length =
        existing ∧
      ∀ r ∈ (mergeSearchResults existing incoming).drop existing.length,
        r.text ≠ "" ∧ r.text ∉ existing.map DocItem.text) ∧
    mergeWebResults [] wincoming = wincoming ∧
    (wexisting ≠ [] →
      (mergeWebResults wexisting wincoming).take wexisting.length =
        wexisting ∧
      ∀ r ∈ (mergeWebResults wexisting wincoming).drop wexisting.length,
        r.content ≠ "" ∧ r.content ∉ wexisting.map WebItem.content) := by
  refine ⟨rfl, ?_, rfl, ?_⟩
  · intro hne
    exact dedupMerge_split DocItem.text existing incoming hne
  · intro hne
    exact dedupMerge_split WebItem.content wexisting wincoming hne

/-- Witness for C10: an empty-text item and an intra-list duplicate are
adopted verbatim into an empty accumulated list, while a merge into a
non-empty list keeps the prior item as prefix. -/
theorem C10_witness :
    mergeSearchResults []
      [{ text := "", meta := "n" }, { text := "a", meta := "x" },
        { text := "a", meta := "y" }] =
      [{ text := "", meta := "n" }, { text := "a", meta := "x" },
        { text := "a", meta := "y" }] ∧
    (mergeSearchResults [{ text := "a", meta := "m" }]
      [{ text := "", meta := "n" }, { text := "b", meta := "x" }]).take
        ([{ text := "a", meta := "m" }] : List DocItem).length =
      [{ text := "a", meta := "m" }] :=
  ⟨(C10_theorem []
      [{ text := "", meta := "n" }, { text := "a", meta := "x" },
        { text := "a", meta := "y" }] [] []).1,
    ((C10_theorem [{ text := "a", meta := "m" }]
      [{ text := "", meta := "n" }, { text := "b", meta := "x" }] []
      []).2.1 (by decide)).1⟩

/-- Claim C4: whenever decide_action runs with iteration below
max_iterations, at least one accumulated result present, web search
enabled, iteration at least 2, no web results yet, and a question
containing a specific-figure keyword, it deterministically sets
use_web_search = true, needs_refinement = false, should_continue = true
and issues zero calls to the decision-making capability. -/
theorem C4_theorem (env : Env) (t : Nat) (s : AgentState)
    (h1 : s.iteration < s.maxIterations)
    (h2 : s.searchResults ≠ [] ∨ s.webResults ≠ [])
    (h3 : 2 ≤ s.iteration)
    (h4 : s.webResults = [])
    (h5 : containsSpecificDataQuery s.question = true) :
    decideAction true env t s =
      ({ s with needsRefinement := false, shouldContinue := true,
                useWebSearch := true }, 0) := by
  have hsr : s.searchResults ≠ [] := by
    rcases h2 with h | h
    · exact h
    · exact absurd h4 h
  have hf : decideFlags true env t s = ((false, true, true), 0) := by
    unfold decideFlags
    rw [if_neg (by omega), if_neg (fun hc => hsr hc.1),
      if_pos ⟨rfl, h3, h4, h5⟩]
  simp [decideAction, hf]

/-- Witness for C4: a Vietnamese question asking "how much", two completed
internal searches, no web results — the fallback fires without an LLM
call, under an environment whose decision capability would have answered
"answer". -/
theorem C4_witness :
    decideAction true okEnv 7
      { initState "Mức phạt là bao nhiêu?" 3 with
        iteration := 2, searchResults := [{ text := "d", meta := "m" }],
        needsRefinement := true } =
      ({ initState "Mức phạt là bao nhiêu?" 3 with
         iteration := 2, searchResults := [{ text := "d", meta := "m" }],
         needsRefinement := false, shouldContinue := true,
         useWebSearch := true }, 0) :=
  C4_theorem okEnv 7
    { initState "Mức phạt là bao nhiêu?" 3 with
      iteration := 2, searchResults := [{ text := "d", meta := "m" }],
      needsRefinement := true }
    (by decide) (Or.inl (by decide)) (by decide) rfl (by decide)

/-- Claim C5: routing after search_web is the very same post-search
evaluation used after search, and it inspects only the internal result
list: empty internal results end the run (whatever the web results),
internal results at max_iterations go to generate_answer, and otherwise
control returns to decide_action. -/
theorem C5_theorem (s : AgentState) (w : List WebItem) (eweb : Bool)
    (env : Env) (t : Nat) :
    routeAfterSearch { s with webResults := w } = routeAfterSearch s ∧
    (s.searchResults = [] → routeAfterSearch s = SearchRoute.finish) ∧
    (s.maxIterations ≤ s.iteration → s.searchResults ≠ [] →
      routeAfterSearch s = SearchRoute.answer) ∧
    (s.iteration < s.maxIterations → s.searchResults ≠ [] →
      routeAfterSearch s = SearchRoute.continueLoop) ∧
    stepConfig eweb env { node := Node.searchWeb, state := s, tick := t } =
      { node := nodeOfSearchRoute
          (routeAfterSearch (searchWebStep eweb env t s)),
        state := searchWebStep eweb env t s, tick := t + 1 } ∧
    stepConfig eweb env { node := Node.search, state := s, tick := t } =
      { node := nodeOfSearchRoute (routeAfterSearch (searchStep env t s)),
        state := searchStep env t s, tick := t + 1 } := by
  refine ⟨rfl, ?_, ?_, ?_, rfl, rfl⟩
  · intro h
    simp [routeAfterSearch, h]
  · intro h1 h2
    simp [routeAfterSearch, h1, h2]
  · intro h1 h2
    have h3 : ¬ s.maxIterations ≤ s.iteration := by omega
    simp [routeAfterSearch, h3, h2]

/-- Witness for C5: a state with empty internal results but a non-empty
web result list routes to End, web results notwithstanding, and the
search_web edge follows the shared router. -/
theorem C5_witness :
    routeAfterSearch
      { initState "q" 3 with
        iteration := 1,
        webResults :=
          [{ kind := "article", title := "t", url := "u", content := "c" }] }
      = routeAfterSearch { initState "q" 3 with iteration := 1 } ∧
    routeAfterSearch { initState "q" 3 with iteration := 1 } =
      SearchRoute.finish ∧
    stepConfig false okEnv
      { node := Node.searchWeb,
        state := { initState "q" 3 with iteration := 1 }, tick := 4 } =
      { node := nodeOfSearchRoute (routeAfterSearch
          (searchWebStep false okEnv 4
            { initState "q" 3 with iteration := 1 })),
        state := searchWebStep false okEnv 4
          { initState "q" 3 with iteration := 1 }, tick := 5 } :=
  ⟨(C5_theorem { initState "q" 3 with iteration := 1 }
      [{ kind := "article", title := "t", url := "u", content := "c" }]
      false okEnv 4).1,
    (C5_theorem { initState "q" 3 with iteration := 1 } [] false okEnv
      4).2.1 rfl,
    (C5_theorem { initState "q" 3 with iteration := 1 } [] false okEnv
      4).2.2.2.2.1⟩

/-- Claim C6: if decide_action issues its call to the decision-making
capability and the call fails, the node never raises (it is a total state
transformer) and falls back deterministically: should_continue = false
when any internal or web results exist, otherwise should_continue = true
with needs_refinement = false, and use_web_search = false in both cases. -/
theorem C6_theorem (eweb : Bool) (env : Env) (t : Nat) (s : AgentState)
    (msg : String) (hcall : decideCallIssued eweb s)
    (herr : env.decideLLM t s = Except.error msg) :
    (decideAction eweb env t s).2 = 1 ∧
    (decideAction eweb env t s).1.useWebSearch = false ∧
    ((s.searchResults ≠ [] ∨ s.webResults ≠ []) →
      (decideAction eweb env t s).1.shouldContinue = false) ∧
    (s.searchResults = [] ∧ s.webResults = [] →
      (decideAction eweb env t s).1.shouldContinue = true ∧
      (decideAction eweb env t s).1.needsRefinement = false) := by
  obtain ⟨h1, h2, h3⟩ := hcall
  have hres : s.searchResults ≠ [] ∨ s.webResults ≠ [] := by tauto
  have hf : decideFlags eweb env t s =
      ((s.needsRefinement, false, false), 1) := by
    unfold decideFlags
    rw [if_neg h1, if_neg h2, if_neg h3, herr]
    show (if s.searchResults ≠ [] ∨ s.webResults ≠ [] then
        ((s.needsRefinement, false, false), 1)
      else ((false, true, false), 1)) =
      ((s.needsRefinement, false, false), 1)
    rw [if_pos hres]
  refine ⟨?_, ?_, ?_, ?_⟩
  · show (decideFlags eweb env t s).2 = 1
    rw [hf]
  · show (decideFlags eweb env t s).1.2.2 = false
    rw [hf]
  · intro _
    show (decideFlags eweb env t s).1.2.1 = false
    rw [hf]
  · intro hcon
    exact absurd hcon h2

/-- Witness for C6: a state with one internal result, iteration 1, web
search disabled, under the always-failing decision environment: one call,
stop, no web search. -/
theorem C6_witness :
    (decideAction false errEnv 0
      { initState "câu hỏi" 3 with
        iteration := 1, searchResults := [{ text := "d", meta := "m" }] }).2 = 1 ∧
    (decideAction false errEnv 0
      { initState "câu hỏi" 3 with
        iteration := 1, searchResults := [{ text := "d", meta := "m" }] }).1.useWebSearch =
      false ∧
    (decideAction false errEnv 0
      { initState "câu hỏi" 3 with
        iteration := 1, searchResults := [{ text := "d", meta := "m" }] }).1.shouldContinue = false :=
  ⟨(C6_theorem false errEnv 0
      { initState "câu hỏi" 3 with
        iteration := 1, searchResults := [{ text := "d", meta := "m" }] } "timeout"
      ⟨by decide, by decide, by decide⟩ rfl).1,
    (C6_theorem false errEnv 0
      { initState "câu hỏi" 3 with
        iteration := 1, searchResults := [{ text := "d", meta := "m" }] } "timeout"
      ⟨by decide, by decide, by decide⟩ rfl).2.1,
    (C6_theorem false errEnv 0
      { initState "câu hỏi" 3 with
        iteration := 1, searchResults := [{ text := "d", meta := "m" }] } "timeout"
      ⟨by decide, by decide, by decide⟩ rfl).2.2.1 (Or.inl (by decide))⟩

/-- Claim C7: when the combined list of tagged internal results and
normalized web results is empty, generate_answer sets the fixed "no
information found" message and issues zero calls to the generation
capability. -/
theorem C7_theorem (env : Env) (t : Nat) (s : AgentState)
    (h : combineResults s = []) :
    generateAnswerStep env t s =
      ({ s with answer := some noResultsMsg }, 0) := by
  simp [generateAnswerStep, h]

/-- Witness for C7: no internal results and a web result of a kind that
normalization drops — the combined list is empty and the short-circuit
fires with zero generation calls. -/
theorem C7_witness :
    generateAnswerStep okEnv 3
      { initState "hỏi" 3 with
        webResults :=
          [{ kind := "infobox", title := "t", url := "u", content := "c" }] }
      =
      ({ initState "hỏi" 3 with
         webResults :=
           [{ kind := "infobox", title := "t", url := "u", content := "c" }],
         answer := some noResultsMsg }, 0) :=
  C7_theorem okEnv 3
    { initState "hỏi" 3 with
      webResults :=
        [{ kind := "infobox", title := "t", url := "u", content := "c" }] }
    (by decide)
